import Mathlib

/-- JSON-shaped Python value: `None`, `bool`, number, `str`, `list`, `dict`
(association list of string keys, first binding wins as in a Python dict). -/
inductive JVal where
  | null
  | bool (b : Bool)
  | num (q : ℚ)
  | str (s : String)
  | arr (xs : List JVal)
  | obj (kvs : List (String × JVal))

/-- Python truthiness (`bool(v)`) on JSON-shaped values. -/
def JVal.truthy : JVal → Bool
  | .null => false
  | .bool b => b
  | .num q => decide (q ≠ 0)
  | .str s => decide (s ≠ "")
  | .arr xs => !xs.isEmpty
  | .obj kvs => !kvs.isEmpty

/-- Python `a or b`: `a` when truthy, else `b`. -/
def pyOr (a b : JVal) : JVal :=
  if a.truthy then a else b

/-- Python `d.get(k, default)`.  Calling `.get` on a non-dict raises
`AttributeError`, which none of the scraper's inner handlers catch. -/
def pyGet (v : JVal) (k : String) (default : JVal) : Except Unit JVal :=
  match v with
  | .obj kvs => .ok ((List.lookup k kvs).getD default)
  | _ => .error ()

/-- Python `len(v)`: defined for `str`, `list`, `dict`; raises `TypeError`
otherwise. -/
def pyLenE : JVal → Except Unit Nat
  | .str s => .ok s.length
  | .arr xs => .ok xs.length
  | .obj kvs => .ok kvs.length
  | _ => .error ()

/-- Python iteration `for x in v`: lists yield elements, strings yield
one-character strings, dicts yield their keys; other values raise
`TypeError`. -/
def pyIter : JVal → Option (List JVal)
  | .arr xs => some xs
  | .str s => some (s.data.map (fun c => .str (String.mk [c])))
  | .obj kvs => some (kvs.map (fun kv => .str kv.1))
  | _ => none

/-- Python `v[i] if i < len(v) else {}` (lines 192-194 of `scraper.py`):
guarded indexing of the per-day lists.  Indexing a dict with an integer key
raises `KeyError` (all our dict keys are strings); indexing a non-sized
value raises `TypeError`. -/
def pyIndexOr : JVal → Nat → Except Unit JVal
  | .arr xs, i => .ok ((xs.get? i).getD (.obj []))
  | .str s, i =>
    .ok (match s.data.get? i with
         | some c => .str (String.mk [c])
         | none => .obj [])
  | .obj kvs, i => if i < kvs.length then .error () else .ok (.obj [])
  | _, _ => .error ()

/-- Split a character list at every occurrence of `sep`
(Python `s.split(sep)` for a one-character separator). -/
def splitOnChar (sep : Char) : List Char → List (List Char)
  | [] => [[]]
  | c :: rest =>
    let r := splitOnChar sep rest
    if c == sep then [] :: r
    else
      match r with
      | [] => [[c]]
      | g :: gs => (c :: g) :: gs

/-- Numeric value of a digit list, most significant first. -/
def digitsVal (cs : List Char) : Nat :=
  cs.foldl (fun n c => n * 10 + (c.toNat - 48)) 0

/-- `some` of the value when the list is a nonempty run of decimal digits. -/
def parseDigits? (cs : List Char) : Option Nat :=
  if cs.isEmpty then none
  else if cs.all Char.isDigit then some (digitsVal cs) else none

/-- Models Python `int(s)` on the strings the scraper feeds it: an optional
sign followed by decimal digits.  (Surrounding whitespace and underscores,
which Python also accepts, are not modelled.) -/
def pyInt? (cs : List Char) : Option Int :=
  match cs with
  | '-' :: rest => (parseDigits? rest).map (fun n => -(n : Int))
  | '+' :: rest => (parseDigits? rest).map (fun n => (n : Int))
  | _ => (parseDigits? cs).map (fun n => (n : Int))

/-- Plain decimal forms accepted by Python `float(s)`: optional sign, digits
with at most one decimal point, at least one digit overall.  (Exponents,
`inf`/`nan` and surrounding whitespace are not modelled.) -/
def parseFloat? (cs : List Char) : Option ℚ :=
  let core : List Char → Option ℚ := fun cs2 =>
    match splitOnChar '.' cs2 with
    | [intp] => (parseDigits? intp).map (fun n => (n : ℚ))
    | [intp, frac] =>
      if (intp ++ frac).isEmpty then none
      else if (intp ++ frac).all Char.isDigit then
        some ((digitsVal intp : ℚ) + (digitsVal frac : ℚ) / ((10 : ℚ) ^ frac.length))
      else none
    | _ => none
  match cs with
  | '-' :: rest => (core rest).map (fun q => -q)
  | '+' :: rest => core rest
  | _ => core cs

/-- Python `float(value)` on JSON-shaped values: numbers convert to
themselves, booleans to 0/1, numeric strings parse; every other value makes
`float` raise `ValueError`/`TypeError`, which `safe_get_float` catches —
modelled as `none`. -/
def pyFloat : JVal → Option ℚ
  | .num q => some q
  | .bool b => some (if b then 1 else 0)
  | .str s => parseFloat? s.data
  | _ => none

/-- `WillyWeatherScraper.safe_get_float` (scraper.py lines 284-296):
returns `None` for falsy or non-dict data, for a missing key, for a `None`
value and for a value `float()` rejects; otherwise the converted value. -/
def safe_get_float (data : JVal) (key : String) : Option ℚ :=
  if data.truthy = false then none
  else
    match data with
    | .obj kvs =>
      match (List.lookup key kvs).getD .null with
      | .null => none
      | v => pyFloat v
    | _ => none

/-- Outcome of processing one entry inside `find_closest_entry`'s loop:
the entry is silently skipped (`continue`), contributes a parsed hour, or
raises an exception that escapes the function (`TypeError`/`AttributeError`
from `'T' in entry_time` / `entry_time.split` — the inner handler only
catches `ValueError` and `IndexError`). -/
inductive EntryStep where
  | skip
  | raise
  | hour (h : Int)
deriving DecidableEq, Repr

/-- One iteration of the loop in `find_closest_entry`
(scraper.py lines 260-280), up to the hour comparison. -/
def entryStep (entry : JVal) : EntryStep :=
  match entry with
  | .obj kvs =>
    let t := (List.lookup "dateTime" kvs).getD (.str "")
    if t.truthy = false then .skip
    else
      match t with
      | .str s =>
        if s.data.contains 'T' then
          match (splitOnChar 'T' s.data).get? 1 with
          | some timePart =>
            match pyInt? ((splitOnChar ':' timePart).headD []) with
            | some h => .hour h
            | none => .skip
          | none => .skip
        else .skip
      | .num _ => .raise
      | .bool _ => .raise
      | .arr xs =>
        if xs.any (fun v => match v with | .str s2 => s2 == "T" | _ => false)
        then .raise else .skip
      | .obj kvs2 =>
        if kvs2.any (fun kv => kv.1 == "T") then .raise else .skip
      | .null => .skip
  | _ => .skip

/-- `diff < min_diff` where `min_diff` starts at `float('inf')` (`none`). -/
def ltOpt (d : Nat) : Option Nat → Bool
  | none => true
  | some m => decide (d < m)

/-- The scan loop of `find_closest_entry`: `closest` starts as Python `None`
(`JVal.null`), `minDiff` as infinity (`none`). -/
def fceLoop (t : Int) : List JVal → JVal → Option Nat → Except Unit JVal
  | [], closest, _ => .ok closest
  | e :: rest, closest, minDiff =>
    match entryStep e with
    | .skip => fceLoop t rest closest minDiff
    | .raise => .error ()
    | .hour h =>
      let d := (h - t).natAbs
      if ltOpt d minDiff then fceLoop t rest e (some d)
      else fceLoop t rest closest minDiff

/-- `WillyWeatherScraper.find_closest_entry` (scraper.py lines 252-282):
returns `{}` for falsy input, scans the entries otherwise, and finishes
with `closest_entry or {}`. -/
def find_closest_entry (entries : JVal) (target_hour : Int) : Except Unit JVal :=
  if entries.truthy = false then .ok (.obj [])
  else
    match pyIter entries with
    | none => .error ()
    | some items =>
      match fceLoop target_hour items .null none with
      | .error e => .error e
      | .ok c => .ok (pyOr c (.obj []))

/-- `TIME_SLOTS` (scraper.py lines 80-88): slot label with target hour. -/
def TIME_SLOTS : List (String × Int) :=
  [("6am", 6), ("8am", 8), ("10am", 10), ("12pm", 12),
   ("2pm", 14), ("4pm", 16), ("6pm", 18)]

/-- The normalized record built at scraper.py lines 223-232. -/
structure ForecastRecord where
  forecast_date : String
  time_period : String
  swell_height : Option ℚ
  swell_direction : Option ℚ
  swell_period : Option ℚ
  wind_speed : Option ℚ
  wind_direction : Option ℚ
  tide_height : Option ℚ
deriving DecidableEq, Repr

/-- Record construction from the three `find_closest_entry` results
(scraper.py lines 223-232). -/
def mkRecord (fdate period : String) (sw wi ti : JVal) : ForecastRecord :=
  { forecast_date := fdate
    time_period := period
    swell_height := safe_get_float sw "height"
    swell_direction := safe_get_float sw "direction"
    swell_period := safe_get_float sw "period"
    wind_speed := safe_get_float wi "speed"
    wind_direction := safe_get_float wi "direction"
    tide_height := safe_get_float ti "height" }

/-- The per-slot loop (scraper.py lines 213-239).  Each slot calls
`find_closest_entry` on the swell, wind and tide entries and appends one
record; an uncaught exception aborts the remaining slots of the day (the
per-day handler catches it) but records already appended stay. -/
def processSlots (fdate : String) (se we te : JVal) :
    List (String × Int) → List ForecastRecord
  | [] => []
  | (p, t) :: rest =>
    match find_closest_entry se t, find_closest_entry we t,
          find_closest_entry te t with
    | .ok sw, .ok wi, .ok ti =>
      mkRecord fdate p sw wi ti :: processSlots fdate se we te rest
    | _, _, _ => []

/-- The per-day prologue (scraper.py lines 192-210): index the three day
lists, resolve the date stamp (`swell_day.get('dateTime',
wind_day.get('dateTime', ''))` — the inner `get` is evaluated first),
`continue` on a falsy date (`ok none`), take the date part before `T`,
fetch the three entry lists and take their lengths (the diagnostic print on
line 210 computes `len` of each, so a non-sized value aborts the day). -/
def dayInfo (swellF windF tidesF : JVal) (i : Nat) :
    Except Unit (Option (String × JVal × JVal × JVal)) := do
  let swellDay ← pyIndexOr swellF i
  let windDay ← pyIndexOr windF i
  let tidesDay ← pyIndexOr tidesF i
  let wdt ← pyGet windDay "dateTime" (.str "")
  let fdRaw ← pyGet swellDay "dateTime" wdt
  if fdRaw.truthy = false then return none
  match fdRaw with
  | .str s => do
    let fdate := String.mk ((splitOnChar 'T' s.data).headD [])
    let se ← pyGet swellDay "entries" (.arr [])
    let we ← pyGet windDay "entries" (.arr [])
    let te ← pyGet tidesDay "entries" (.arr [])
    let _ ← pyLenE se
    let _ ← pyLenE we
    let _ ← pyLenE te
    return some (fdate, se, we, te)
  | _ => .error ()

/-- One iteration of the day loop (scraper.py lines 189-243): the per-day
`except Exception: continue` turns any uncaught exception in the prologue
into zero records; a falsy date also contributes zero records. -/
def processDay (swellF windF tidesF : JVal) (i : Nat) : List ForecastRecord :=
  match dayInfo swellF windF tidesF i with
  | .error _ => []
  | .ok none => []
  | .ok (some (fdate, se, we, te)) => processSlots fdate se we te TIME_SLOTS

/-- Body of `extract_forecast_records` before the outer exception handler
(scraper.py lines 169-246). -/
def extractE (data : JVal) : Except Unit (List ForecastRecord) := do
  let forecasts ← pyGet data "forecasts" (.obj [])
  if forecasts.truthy = false then return []
  let swellSec ← pyGet forecasts "swell" (.obj [])
  let swellF ← pyGet swellSec "days" (.arr [])
  let windSec ← pyGet forecasts "wind" (.obj [])
  let windF ← pyGet windSec "days" (.arr [])
  let tidesSec ← pyGet forecasts "tides" (.obj [])
  let tidesF ← pyGet tidesSec "days" (.arr [])
  if swellF.truthy = false ∧ windF.truthy = false then return []
  let nSw ← pyLenE swellF
  let nWi ← pyLenE windF
  let _ ← pyLenE tidesF
  return (List.range (min 3 (max nSw nWi))).flatMap (processDay swellF windF tidesF)

/-- `WillyWeatherScraper.extract_forecast_records` (scraper.py lines
167-250): the outer `except Exception` turns any escaping exception into an
empty record list. -/
def extract_forecast_records (data : JVal) : List ForecastRecord :=
  match extractE data with
  | .error _ => []
  | .ok rs => rs

/-- Outcome of the HTTP request in `get_forecast_data`, abstracting the
network: a timeout, a connection error, or a response with a status code
and a body (`none` when `response.json()` raises `JSONDecodeError`). -/
inductive ApiOutcome where
  | timeout
  | connError
  | response (status : Nat) (body : Option JVal)

/-- `WillyWeatherScraper.get_forecast_data` (scraper.py lines 96-165) with
the HTTP call abstracted into its outcome.  404 and other non-200 statuses,
unparseable JSON, a falsy or non-dict body, a missing `forecasts` key, and
a non-dict `forecasts` value (whose `.keys()` call on line 139 raises into
the outer handler) all yield the empty record list; the trailing
`if forecast_records: return forecast_records else return []` is the
identity on the extracted list. -/
def get_forecast_data (o : ApiOutcome) : List ForecastRecord :=
  match o with
  | .timeout => []
  | .connError => []
  | .response status body =>
    if status = 404 then []
    else if status ≠ 200 then []
    else
      match body with
      | none => []
      | some data =>
        if data.truthy = false then []
        else
          match data with
          | .obj kvs =>
            match List.lookup "forecasts" kvs with
            | none => []
            | some (.obj _) => extract_forecast_records (.obj kvs)
            | some _ => []
          | _ => []

/-- A row of the `forecast_data` table as built at scraper.py lines
341-351. -/
structure DbRow where
  break_id : Nat
  forecast_date : String
  forecast_time : String
  swell_height : Option ℚ
  swell_direction : Option ℚ
  swell_period : Option ℚ
  wind_speed : Option ℚ
  wind_direction : Option ℚ
  tide_height : Option ℚ
deriving DecidableEq, Repr

/-- The upserted row for one break and one normalized record
(scraper.py lines 341-351). -/
def toDbRow (breakId : Nat) (r : ForecastRecord) : DbRow :=
  { break_id := breakId
    forecast_date := r.forecast_date
    forecast_time := r.time_period
    swell_height := r.swell_height
    swell_direction := r.swell_direction
    swell_period := r.swell_period
    wind_speed := r.wind_speed
    wind_direction := r.wind_direction
    tide_height := r.tide_height }

/-- `save_forecast_data` (scraper.py lines 318-376) with the database
abstracted: `breaks` is the list of break ids the region resolves to, and
the result is the list of rows upserted, in upsert order (outer loop over
breaks, inner loop over records), under the claim's assumption that every
upsert succeeds. -/
def save_forecast_data (forecast_records : List ForecastRecord)
    (breaks : List Nat) : List DbRow :=
  breaks.flatMap (fun b => forecast_records.map (toDbRow b))

/-- A well-shaped payload (`forecasts` with `swell`/`wind`/`tides` sections
whose `days` are lists), as described by the spec's external-interface
section; the day lists themselves are arbitrary values. -/
def mkPayload (sd wd td : List JVal) : JVal :=
  .obj [("forecasts", .obj [
    ("swell", .obj [("days", .arr sd)]),
    ("wind", .obj [("days", .arr wd)]),
    ("tides", .obj [("days", .arr td)])])]

/-- The conditions under which `safe_get_float` yields `none` on a (dict)
`find_closest_entry` result: the empty dict (no entry matched), a missing
key, a `None` value, or a value `float()` rejects. -/
def fieldNull (kvs : List (String × JVal)) (k : String) : Prop :=
  kvs = [] ∨ List.lookup k kvs = none ∨ List.lookup k kvs = some JVal.null ∨
    ∃ v, List.lookup k kvs = some v ∧ pyFloat v = none

/-- Key-value list of a matched entry whose `height` field holds a
non-numeric string. -/
def cexC5Kvs : List (String × JVal) :=
  [("dateTime", .str "2024-01-01T06:00:00"), ("height", .str "abc")]

/-- The entry `{'dateTime': '2024-01-01T06:00:00', 'height': 'abc'}`. -/
def cexC5Entry : JVal := .obj cexC5Kvs

/-- Two upserted rows agree on everything except possibly the break id. -/
def dbValuesEq (a b : DbRow) : Prop :=
  a.forecast_date = b.forecast_date ∧ a.forecast_time = b.forecast_time ∧
  a.swell_height = b.swell_height ∧ a.swell_direction = b.swell_direction ∧
  a.swell_period = b.swell_period ∧ a.wind_speed = b.wind_speed ∧
  a.wind_direction = b.wind_direction ∧ a.tide_height = b.tide_height

/-- A normalized record used by the C6 witness. -/
def recW : ForecastRecord :=
  { forecast_date := "2024-01-01", time_period := "6am",
    swell_height := some 1, swell_direction := none, swell_period := none,
    wind_speed := none, wind_direction := none, tide_height := none }

/-- First of two input records sharing date and slot but not values. -/
def recA : ForecastRecord :=
  { forecast_date := "2024-01-01", time_period := "6am",
    swell_height := some 1, swell_direction := none, swell_period := none,
    wind_speed := none, wind_direction := none, tide_height := none }

/-- Second of two input records sharing date and slot but not values. -/
def recB : ForecastRecord :=
  { forecast_date := "2024-01-01", time_period := "6am",
    swell_height := some 2, swell_direction := none, swell_period := none,
    wind_speed := none, wind_direction := none, tide_height := none }

/-- A minimal forecast day carrying only a date stamp. -/
def dayD (d : String) : JVal :=
  .obj [("dateTime", .str (d ++ "T00:00:00")), ("entries", .arr [])]

/-- A payload containing four swell days. -/
def cexC4Payload : JVal :=
  mkPayload [dayD "2024-01-01", dayD "2024-01-02", dayD "2024-01-03",
             dayD "2024-01-04"] [] []

/-- An entries value on which `find_closest_entry` cannot raise: either it
is falsy (the early `return {}`), or it is iterable and none of its items
triggers an uncaught `TypeError`/`AttributeError`. -/
def noRaise (v : JVal) : Bool :=
  !v.truthy ||
    match pyIter v with
    | none => false
    | some items => items.all (fun e => decide (entryStep e ≠ .raise))

/-- The day used by the C3 witness: a date stamp and no entries. -/
def dayW : JVal :=
  .obj [("dateTime", .str "2024-01-01T00:00:00"), ("entries", .arr [])]

/-- An entry whose `dateTime` is a number: `'T' in entry_time` raises an
uncaught `TypeError`. -/
def cexRaise : JVal := .obj [("dateTime", .num 5)]

/-- A day carrying a date stamp whose entry list contains `cexRaise`. -/
def dayBad : JVal :=
  .obj [("dateTime", .str "2024-01-01T00:00:00"),
        ("entries", .arr [cexRaise])]

/-- `abs(hour - target_hour)` (scraper.py line 274). -/
def hourDist (h t : Int) : Nat := (h - t).natAbs

/-- No element of the list contributes a parsed hour. -/
def NoHour (l : List JVal) : Prop := ∀ e ∈ l, ∀ h, entryStep e ≠ .hour h

/-- `d` is a lower bound on the hour distance of every parseable entry. -/
def MinOver (t : Int) (d : Nat) (l : List JVal) : Prop :=
  ∀ e ∈ l, ∀ h, entryStep e = .hour h → d ≤ hourDist h t

/-- Every parseable entry of the list has hour distance strictly above
`d`. -/
def StrictBefore (t : Int) (d : Nat) (l : List JVal) : Prop :=
  ∀ e ∈ l, ∀ h, entryStep e = .hour h → d < hourDist h t

/-- Invariant of the scan loop after processing the prefix `pre`: with no
minimum yet, `closest` is still `None` and no prefix entry parsed; with
minimum `d`, `closest` is the first prefix entry achieving distance `d`,
every earlier parseable entry is strictly farther, and `d` is minimal over
the prefix. -/
def LoopInv (t : Int) (pre : List JVal) (c : JVal) (m : Option Nat) : Prop :=
  match m with
  | none => c = .null ∧ NoHour pre
  | some d => ∃ pA pB h, pre = pA ++ c :: pB ∧ entryStep c = .hour h ∧
      hourDist h t = d ∧ StrictBefore t d pA ∧ MinOver t d pre

/-- The entry `{'dateTime': '2024-01-01T06:00:00'}`. -/
def entW : JVal := .obj [("dateTime", .str "2024-01-01T06:00:00")]

/-- A dict entry with no timestamp at all. -/
def cexNoTs : JVal := .obj [("x", .num 1)]

/-! ## Theorems -/

/-- On a well-shaped payload, `extract_forecast_records` is the
concatenation of the per-day results over the first
`min 3 (max #swell-days #wind-days)` day indices. -/
theorem extract_mkPayload (sd wd td : List JVal) :
    extract_forecast_records (mkPayload sd wd td) =
      (List.range (min 3 (max sd.length wd.length))).flatMap
        (processDay (.arr sd) (.arr wd) (.arr td)) := by
  cases sd <;> cases wd <;> rfl

theorem safe_get_float_obj_none_iff (kvs : List (String × JVal)) (k : String) :
    safe_get_float (.obj kvs) k = none ↔ fieldNull kvs k := by
  cases kvs with
  | nil => simp [safe_get_float, fieldNull, JVal.truthy]
  | cons kv rest =>
    simp only [safe_get_float, JVal.truthy, List.isEmpty_cons, Bool.not_false,
      fieldNull, reduceCtorEq, false_or]
    cases hl : List.lookup k (kv :: rest) with
    | none => simp [hl]
    | some v => cases v <;> simp [hl, pyFloat]

/-- Claim C5 (amended): for a normalized record built from (dict) matched
entries, each forecast variable field is null iff no entry was matched (the
empty-dict sentinel), the matched entry lacks the field, the field's value
is `None`, or the value is not convertible to a float.  (The original
claim omitted the last two conditions.) -/
theorem C5_record_field_null_iff (fdate p : String)
    (skvs wkvs tkvs : List (String × JVal)) :
    ((mkRecord fdate p (.obj skvs) (.obj wkvs) (.obj tkvs)).swell_height = none
       ↔ fieldNull skvs "height") ∧
    ((mkRecord fdate p (.obj skvs) (.obj wkvs) (.obj tkvs)).swell_direction = none
       ↔ fieldNull skvs "direction") ∧
    ((mkRecord fdate p (.obj skvs) (.obj wkvs) (.obj tkvs)).swell_period = none
       ↔ fieldNull skvs "period") ∧
    ((mkRecord fdate p (.obj skvs) (.obj wkvs) (.obj tkvs)).wind_speed = none
       ↔ fieldNull wkvs "speed") ∧
    ((mkRecord fdate p (.obj skvs) (.obj wkvs) (.obj tkvs)).wind_direction = none
       ↔ fieldNull wkvs "direction") ∧
    ((mkRecord fdate p (.obj skvs) (.obj wkvs) (.obj tkvs)).tide_height = none
       ↔ fieldNull tkvs "height") := by
  refine ⟨?_, ?_, ?_, ?_, ?_, ?_⟩ <;>
    simp only [mkRecord] <;> exact safe_get_float_obj_none_iff _ _

/-- Claim C5 counterexample: the entry is matched (returned by
`find_closest_entry`, an element of the input list) and carries a `height`
field, yet the record's swell height is null — so "null iff no entry
matched or the entry lacked the field" fails in the only-if direction. -/
theorem C5_counterexample :
    find_closest_entry (.arr [cexC5Entry]) 6 = .ok cexC5Entry ∧
    List.lookup "height" cexC5Kvs = some (JVal.str "abc") ∧
    (mkRecord "2024-01-01" "6am" cexC5Entry (.obj []) (.obj [])).swell_height
      = none :=
  ⟨rfl, rfl, rfl⟩

/-- Claim C7: `safe_get_float` is total — on every input it returns either
a float or null (first conjunct; in the embedding no exception path even
exists, every caught `ValueError`/`TypeError` having been folded into
`none`), and it returns null rather than raising on non-dict data, missing
keys, `None` values, and values `float()` rejects. -/
theorem C7_safe_get_float_total (d : JVal) (k : String) :
    (safe_get_float d k = none ∨ ∃ q, safe_get_float d k = some q) ∧
    ((∀ kvs, d ≠ JVal.obj kvs) → safe_get_float d k = none) ∧
    (∀ kvs, d = JVal.obj kvs → List.lookup k kvs = none →
      safe_get_float d k = none) ∧
    (∀ kvs, d = JVal.obj kvs → List.lookup k kvs = some JVal.null →
      safe_get_float d k = none) ∧
    (∀ kvs v, d = JVal.obj kvs → List.lookup k kvs = some v →
      pyFloat v = none → safe_get_float d k = none) := by
  refine ⟨?_, ?_, ?_, ?_, ?_⟩
  · cases h : safe_get_float d k with
    | none => exact Or.inl rfl
    | some q => exact Or.inr ⟨q, rfl⟩
  · intro h
    cases d with
    | obj kvs => exact absurd rfl (h kvs)
    | null => rfl
    | bool b => cases b <;> rfl
    | num q => simp [safe_get_float]
    | str s => simp [safe_get_float]
    | arr xs => simp [safe_get_float]
  · intro kvs hd hl
    subst hd
    exact (safe_get_float_obj_none_iff kvs k).2 (Or.inr (Or.inl hl))
  · intro kvs hd hl
    subst hd
    exact (safe_get_float_obj_none_iff kvs k).2 (Or.inr (Or.inr (Or.inl hl)))
  · intro kvs v hd hl hf
    subst hd
    exact (safe_get_float_obj_none_iff kvs k).2
      (Or.inr (Or.inr (Or.inr ⟨v, hl, hf⟩)))

/-- Witness for C7 at a concrete input: a dict without the key gives
null. -/
theorem C7_witness : safe_get_float (JVal.obj []) "height" = none :=
  (C7_safe_get_float_total (JVal.obj []) "height").2.2.1 [] rfl rfl

/-- Claim C8: timeouts, connection errors, non-200 statuses, unparseable
JSON, an empty or non-dict body, and a body without a `forecasts` section
all make `get_forecast_data` return the empty record list; no exception
propagates (the embedding is a total function into `List ForecastRecord`:
every raising path of the body is absorbed by the outer handler). -/
theorem C8_get_forecast_data_failures :
    get_forecast_data .timeout = [] ∧
    get_forecast_data .connError = [] ∧
    (∀ s b, s ≠ 200 → get_forecast_data (.response s b) = []) ∧
    (∀ s, get_forecast_data (.response s none) = []) ∧
    (∀ d, d.truthy = false → get_forecast_data (.response 200 (some d)) = []) ∧
    (∀ d, (∀ kvs, d ≠ JVal.obj kvs) →
      get_forecast_data (.response 200 (some d)) = []) ∧
    (∀ kvs, List.lookup "forecasts" kvs = none →
      get_forecast_data (.response 200 (some (.obj kvs))) = []) := by
  refine ⟨rfl, rfl, ?_, ?_, ?_, ?_, ?_⟩
  · intro s b h
    by_cases h4 : s = 404
    · subst h4; rfl
    · simp [get_forecast_data, h4, h]
  · intro s
    by_cases h4 : s = 404
    · subst h4; rfl
    · by_cases h2 : s = 200
      · subst h2; rfl
      · simp [get_forecast_data, h4, h2]
  · intro d hd
    simp [get_forecast_data, hd]
  · intro d hd
    cases d with
    | obj kvs => exact absurd rfl (hd kvs)
    | null => rfl
    | bool b => cases b <;> rfl
    | num q => simp [get_forecast_data]
    | str s => simp [get_forecast_data]
    | arr xs => simp [get_forecast_data]
  · intro kvs hk
    simp [get_forecast_data, hk, JVal.truthy]

/-- Witness for C8 at a concrete input: a 500 status yields no records. -/
theorem C8_witness : get_forecast_data (.response 500 none) = [] :=
  C8_get_forecast_data_failures.2.2.1 500 none (by decide)

theorem save_length (records : List ForecastRecord) (breaks : List Nat) :
    (save_forecast_data records breaks).length = records.length * breaks.length := by
  induction breaks with
  | nil => simp [save_forecast_data]
  | cons b bs ih =>
    show (List.map (toDbRow b) records ++ save_forecast_data records bs).length = _
    rw [List.length_append, List.length_map, ih, List.length_cons]
    ring

theorem save_mem (records : List ForecastRecord) (breaks : List Nat)
    (a : DbRow) :
    a ∈ save_forecast_data records breaks ↔
      ∃ b ∈ breaks, ∃ r ∈ records, a = toDbRow b r := by
  simp [save_forecast_data, List.mem_flatMap, List.mem_map, eq_comm]

/-- Claim C6 (amended): with N records and M breaks, and every upsert
succeeding, exactly N·M rows are upserted; and provided any two input
records sharing a forecast date and slot label are identical (true of the
claim's "normalized records", one per date and slot), any two upserted rows
sharing a date and slot label carry identical forecast values, differing
only in break identifier. -/
theorem C6_fanout (records : List ForecastRecord) (breaks : List Nat)
    (hcoh : ∀ r1 ∈ records, ∀ r2 ∈ records,
      r1.forecast_date = r2.forecast_date → r1.time_period = r2.time_period →
      r1 = r2) :
    (save_forecast_data records breaks).length
      = records.length * breaks.length ∧
    ∀ a ∈ save_forecast_data records breaks,
      ∀ b ∈ save_forecast_data records breaks,
      a.forecast_date = b.forecast_date → a.forecast_time = b.forecast_time →
      dbValuesEq a b := by
  refine ⟨save_length records breaks, ?_⟩
  intro a ha b hb hdate htime
  obtain ⟨ba, hba, ra, hra, haeq⟩ := (save_mem records breaks a).1 ha
  obtain ⟨bb, hbb, rb, hrb, hbeq⟩ := (save_mem records breaks b).1 hb
  subst haeq
  subst hbeq
  simp only [toDbRow] at hdate htime
  have hr : ra = rb := hcoh ra hra rb hrb hdate htime
  subst hr
  exact ⟨rfl, rfl, rfl, rfl, rfl, rfl, rfl, rfl⟩

/-- Witness for C6 at a concrete input: one record fanned out over two
breaks gives 1·2 rows with identical values. -/
theorem C6_witness :
    (save_forecast_data [recW] [1, 2]).length = 1 * 2 ∧
    ∀ a ∈ save_forecast_data [recW] [1, 2],
      ∀ b ∈ save_forecast_data [recW] [1, 2],
      a.forecast_date = b.forecast_date → a.forecast_time = b.forecast_time →
      dbValuesEq a b :=
  C6_fanout [recW] [1, 2] (by decide)

/-- Claim C6 counterexample: calling `save_forecast_data` with two records
that share date and slot label but differ in swell height upserts two rows
that share date and slot label yet carry different forecast values (and
even the same break id) — so "any two upserted rows sharing date and slot
differ only in break identifier" fails for that call. -/
theorem C6_counterexample :
    save_forecast_data [recA, recB] [7] = [toDbRow 7 recA, toDbRow 7 recB] ∧
    (toDbRow 7 recA).forecast_date = (toDbRow 7 recB).forecast_date ∧
    (toDbRow 7 recA).forecast_time = (toDbRow 7 recB).forecast_time ∧
    (toDbRow 7 recA).break_id = (toDbRow 7 recB).break_id ∧
    (toDbRow 7 recA).swell_height ≠ (toDbRow 7 recB).swell_height := by
  refine ⟨rfl, rfl, rfl, rfl, ?_⟩
  decide

/-- Claim C10: the day loop runs over `min 3 (max #swell-days #wind-days)`
day indices — tide days never contribute to the count — and in particular a
payload whose swell and wind day lists are both empty produces no records
even when tide days with entries are present. -/
theorem C10_day_count (sd wd td : List JVal) :
    extract_forecast_records (mkPayload sd wd td) =
      (List.range (min 3 (max sd.length wd.length))).flatMap
        (processDay (.arr sd) (.arr wd) (.arr td)) ∧
    extract_forecast_records (mkPayload [] [] td) = [] :=
  ⟨extract_mkPayload sd wd td, rfl⟩

/-- Claim C4 (amended): `extract_forecast_records` iterates over the day
indices up to `min 3 (max #swell-days #wind-days)` — not over every day of
the payload — and each visited day is processed independently, contributing
its own sublist of records.  (The original claim said every day present is
processed; the 3-day cap refutes that.) -/
theorem C4_day_iteration (sd wd td : List JVal) :
    extract_forecast_records (mkPayload sd wd td) =
      ((List.range (min 3 (max sd.length wd.length))).map
        (processDay (.arr sd) (.arr wd) (.arr td))).flatten := by
  rw [extract_mkPayload]
  rfl

/-- Claim C4 counterexample: a payload with four swell days yields 21
records (3 days × 7 slots) and none of them carries the fourth day's date —
the fourth day present in the payload is never processed. -/
theorem C4_counterexample :
    (extract_forecast_records cexC4Payload).length = 21 ∧
    (extract_forecast_records cexC4Payload).all
      (fun r => r.forecast_date != "2024-01-04") = true :=
  ⟨rfl, rfl⟩

/-- Claim C9: a day whose swell and wind day dicts both lack a `dateTime`
key is skipped as a unit — it contributes zero records — while the
surrounding day loop continues: the payload's records are still the
concatenation of the per-day results, day `i`'s part being empty. -/
theorem C9_dateless_day_skipped (sd wd td : List JVal) (i : Nat)
    (skvs wkvs : List (String × JVal))
    (hs : sd.get? i = some (.obj skvs))
    (hw : wd.get? i = some (.obj wkvs))
    (hsd : List.lookup "dateTime" skvs = none)
    (hwd : List.lookup "dateTime" wkvs = none) :
    processDay (.arr sd) (.arr wd) (.arr td) i = [] ∧
    extract_forecast_records (mkPayload sd wd td) =
      (List.range (min 3 (max sd.length wd.length))).flatMap
        (processDay (.arr sd) (.arr wd) (.arr td)) := by
  refine ⟨?_, extract_mkPayload sd wd td⟩
  have hs2 : sd[i]? = some (JVal.obj skvs) := by
    simpa [List.get?_eq_getElem?] using hs
  have hw2 : wd[i]? = some (JVal.obj wkvs) := by
    simpa [List.get?_eq_getElem?] using hw
  have hday : dayInfo (.arr sd) (.arr wd) (.arr td) i = .ok none := by
    simp [dayInfo, pyIndexOr, hs2, hw2, pyGet, hsd, hwd, JVal.truthy,
      Bind.bind, Except.bind, pure, Except.pure]
  simp [processDay, hday]

/-- Witness for C9 at a concrete input: single dateless swell and wind
days. -/
theorem C9_witness :
    processDay (.arr [.obj []]) (.arr [.obj []]) (.arr []) 0 = [] ∧
    extract_forecast_records (mkPayload [.obj []] [.obj []] []) =
      (List.range (min 3 (max [JVal.obj []].length [JVal.obj []].length))).flatMap
        (processDay (.arr [.obj []]) (.arr [.obj []]) (.arr [])) :=
  C9_dateless_day_skipped [.obj []] [.obj []] [] 0 [] [] rfl rfl rfl rfl

theorem fceLoop_ok_of_noRaise (t : Int) (items : List JVal)
    (h : ∀ e ∈ items, entryStep e ≠ .raise) :
    ∀ c m, ∃ r, fceLoop t items c m = .ok r := by
  induction items with
  | nil => exact fun c m => ⟨c, rfl⟩
  | cons e rest ih =>
    intro c m
    have hrest : ∀ x ∈ rest, entryStep x ≠ .raise :=
      fun x hx => h x (List.mem_cons_of_mem e hx)
    cases hstep : entryStep e with
    | skip =>
      obtain ⟨r, hr⟩ := ih hrest c m
      exact ⟨r, by simp [fceLoop, hstep, hr]⟩
    | raise => exact absurd hstep (h e (List.mem_cons_self e rest))
    | hour hh =>
      by_cases hlt : ltOpt ((hh - t).natAbs) m = true
      · obtain ⟨r, hr⟩ := ih hrest e (some ((hh - t).natAbs))
        exact ⟨r, by simp [fceLoop, hstep, hlt, hr]⟩
      · obtain ⟨r, hr⟩ := ih hrest c m
        exact ⟨r, by simp [fceLoop, hstep, hlt, hr]⟩

theorem find_closest_ok_of_noRaise (v : JVal) (hv : noRaise v = true)
    (t : Int) : ∃ r, find_closest_entry v t = .ok r := by
  by_cases ht : v.truthy = false
  · exact ⟨.obj [], by simp [find_closest_entry, ht]⟩
  · have hv2 : (match pyIter v with
      | none => false
      | some items => items.all (fun e => decide (entryStep e ≠ .raise))) = true := by
      simpa [noRaise, ht, Bool.not_eq_true'] using hv
    cases hit : pyIter v with
    | none => rw [hit] at hv2; exact absurd hv2 (by simp)
    | some items =>
      rw [hit] at hv2
      have hall : ∀ e ∈ items, entryStep e ≠ .raise := by
        intro e he
        have := (List.all_eq_true.1 hv2) e he
        exact of_decide_eq_true this
      obtain ⟨r, hr⟩ := fceLoop_ok_of_noRaise t items hall .null none
      exact ⟨pyOr r (.obj []), by simp [find_closest_entry, ht, hit, hr]⟩

theorem processSlots_spec (fdate : String) (se we te : JVal)
    (hs : noRaise se = true) (hw : noRaise we = true)
    (ht : noRaise te = true) :
    ∀ slots, (processSlots fdate se we te slots).map (fun r => r.time_period)
        = slots.map (fun s => s.1) ∧
      ∀ r ∈ processSlots fdate se we te slots, r.forecast_date = fdate := by
  intro slots
  induction slots with
  | nil => simp [processSlots]
  | cons s rest ih =>
    obtain ⟨p, t⟩ := s
    obtain ⟨sw, hsw⟩ := find_closest_ok_of_noRaise se hs t
    obtain ⟨wi, hwi⟩ := find_closest_ok_of_noRaise we hw t
    obtain ⟨ti, hti⟩ := find_closest_ok_of_noRaise te ht t
    refine ⟨?_, ?_⟩
    · simp [processSlots, hsw, hwi, hti, mkRecord, ih.1]
    · intro r hr
      simp only [processSlots, hsw, hwi, hti, List.mem_cons] at hr
      rcases hr with hr | hr
      · rw [hr]; rfl
      · exact ih.2 r hr

/-- Claim C3 (amended): for every day the day loop processes that carries a
date stamp (`dayInfo` succeeds with a date and the three entry lists) and
whose entry lists cause no uncaught exception during the per-slot search,
exactly 7 records are produced — one per canonical slot, in slot order, all
carrying that day's date.  A slot with no matching data still yields a
record (the empty-dict sentinel makes its fields null).  (The original
claim held for arbitrary entries; an entry whose `dateTime` is a number
makes `'T' in entry_time` raise an uncaught `TypeError`, aborting the day's
remaining slots — see the counterexample.) -/
theorem C3_seven_records_per_day (swellF windF tidesF : JVal) (i : Nat)
    (fdate : String) (se we te : JVal)
    (hday : dayInfo swellF windF tidesF i = .ok (some (fdate, se, we, te)))
    (hs : noRaise se = true) (hw : noRaise we = true)
    (ht : noRaise te = true) :
    (processDay swellF windF tidesF i).length = 7 ∧
    (processDay swellF windF tidesF i).map (fun r => r.time_period)
      = ["6am", "8am", "10am", "12pm", "2pm", "4pm", "6pm"] ∧
    ∀ r ∈ processDay swellF windF tidesF i, r.forecast_date = fdate := by
  have hpd : processDay swellF windF tidesF i
      = processSlots fdate se we te TIME_SLOTS := by
    simp [processDay, hday]
  have h := processSlots_spec fdate se we te hs hw ht TIME_SLOTS
  rw [hpd]
  refine ⟨?_, ?_, h.2⟩
  · have hlen := congrArg List.length h.1
    simpa [TIME_SLOTS] using hlen
  · simpa [TIME_SLOTS] using h.1

/-- Witness for C3 at a concrete input: a day with a date stamp and empty
entry lists yields exactly the 7 slot records, all dated that day. -/
theorem C3_witness :
    (processDay (.arr [dayW]) (.arr []) (.arr []) 0).length = 7 ∧
    (processDay (.arr [dayW]) (.arr []) (.arr []) 0).map
      (fun r => r.time_period)
      = ["6am", "8am", "10am", "12pm", "2pm", "4pm", "6pm"] ∧
    ∀ r ∈ processDay (.arr [dayW]) (.arr []) (.arr []) 0,
      r.forecast_date = "2024-01-01" :=
  C3_seven_records_per_day (.arr [dayW]) (.arr []) (.arr []) 0
    "2024-01-01" (.arr []) (.arr []) (.arr []) rfl rfl rfl rfl

/-- Claim C3 counterexample: day 0 of this payload is processed and carries
the date stamp `2024-01-01` (first conjunct), yet the whole payload yields
zero records instead of 7 for that day (second conjunct): the raising entry
aborts the day's slots at the first slot. -/
theorem C3_counterexample :
    dayInfo (.arr [dayBad]) (.arr []) (.arr []) 0
      = .ok (some ("2024-01-01", .arr [cexRaise], .arr [], .arr [])) ∧
    extract_forecast_records (mkPayload [dayBad] [] []) = [] :=
  ⟨rfl, rfl⟩

theorem noHour_snoc (l : List JVal) (e : JVal)
    (hl : NoHour l) (he : ∀ h, entryStep e ≠ .hour h) : NoHour (l ++ [e]) := by
  intro x hx h
  rcases List.mem_append.1 hx with hx | hx
  · exact hl x hx h
  · rw [List.mem_singleton.1 hx]
    exact he h

theorem minOver_snoc (t : Int) (d : Nat) (l : List JVal) (e : JVal)
    (hl : MinOver t d l)
    (he : ∀ h, entryStep e = .hour h → d ≤ hourDist h t) :
    MinOver t d (l ++ [e]) := by
  intro x hx h hxh
  rcases List.mem_append.1 hx with hx | hx
  · exact hl x hx h hxh
  · rw [List.mem_singleton.1 hx] at hxh
    exact he h hxh

theorem inv_snoc_nohour (t : Int) (pre : List JVal) (c : JVal)
    (m : Option Nat) (e : JVal) (hInv : LoopInv t pre c m)
    (he : ∀ h, entryStep e ≠ .hour h) : LoopInv t (pre ++ [e]) c m := by
  cases m with
  | none => exact ⟨hInv.1, noHour_snoc pre e hInv.2 he⟩
  | some d =>
    obtain ⟨pA, pB, h, hpre, hc, hd, hstrict, hmin⟩ := hInv
    refine ⟨pA, pB ++ [e], h, ?_, hc, hd, hstrict, ?_⟩
    · rw [hpre]
      simp
    · exact minOver_snoc t d pre e hmin (fun h2 hh2 => absurd hh2 (he h2))

theorem inv_snoc_better (t : Int) (pre : List JVal) (c : JVal)
    (m : Option Nat) (e : JVal) (h : Int) (hInv : LoopInv t pre c m)
    (he : entryStep e = .hour h) (hlt : ltOpt (hourDist h t) m = true) :
    LoopInv t (pre ++ [e]) e (some (hourDist h t)) := by
  have hstrict : StrictBefore t (hourDist h t) pre := by
    cases m with
    | none =>
      intro x hx h2 hxh
      exact absurd hxh (hInv.2 x hx h2)
    | some d0 =>
      have hlt2 : hourDist h t < d0 := by simpa [ltOpt] using hlt
      obtain ⟨pA, pB, hh, hpre, hc, hd, _, hmin⟩ := hInv
      intro x hx h2 hxh
      exact lt_of_lt_of_le hlt2 (hmin x hx h2 hxh)
  refine ⟨pre, [], h, rfl, he, rfl, hstrict, ?_⟩
  refine minOver_snoc t (hourDist h t) pre e
    (fun x hx h2 hxh => le_of_lt (hstrict x hx h2 hxh)) ?_
  intro h2 hh2
  rw [he] at hh2
  cases hh2
  exact le_refl _

theorem inv_snoc_worse (t : Int) (pre : List JVal) (c : JVal) (d0 : Nat)
    (e : JVal) (h : Int) (hInv : LoopInv t pre c (some d0))
    (he : entryStep e = .hour h) (hge : d0 ≤ hourDist h t) :
    LoopInv t (pre ++ [e]) c (some d0) := by
  obtain ⟨pA, pB, hh, hpre, hc, hd, hstrict, hmin⟩ := hInv
  refine ⟨pA, pB ++ [e], hh, ?_, hc, hd, hstrict, ?_⟩
  · rw [hpre]
    simp
  · refine minOver_snoc t d0 pre e hmin ?_
    intro h2 hh2
    rw [he] at hh2
    cases hh2
    exact hge

theorem fceLoop_inv (t : Int) :
    ∀ (rest pre : List JVal) (c : JVal) (m : Option Nat) (c2 : JVal),
      LoopInv t pre c m → fceLoop t rest c m = .ok c2 →
      ∃ m2, LoopInv t (pre ++ rest) c2 m2 := by
  intro rest
  induction rest with
  | nil =>
    intro pre c m c2 hInv hok
    have hc : c = c2 := by simpa [fceLoop] using hok
    subst hc
    exact ⟨m, by simpa using hInv⟩
  | cons e rest ih =>
    intro pre c m c2 hInv hok
    have hassoc : pre ++ e :: rest = (pre ++ [e]) ++ rest := by simp
    rw [hassoc]
    cases hstep : entryStep e with
    | skip =>
      simp only [fceLoop, hstep] at hok
      refine ih (pre ++ [e]) c m c2 ?_ hok
      refine inv_snoc_nohour t pre c m e hInv ?_
      intro h2
      rw [hstep]
      simp
    | raise => simp [fceLoop, hstep] at hok
    | hour h =>
      simp only [fceLoop, hstep] at hok
      by_cases hlt : ltOpt ((h - t).natAbs) m = true
      · rw [if_pos hlt] at hok
        exact ih (pre ++ [e]) e (some ((h - t).natAbs)) c2
          (inv_snoc_better t pre c m e h hInv hstep hlt) hok
      · rw [if_neg hlt] at hok
        cases m with
        | none => exact absurd rfl hlt
        | some d0 =>
          have hge : d0 ≤ (h - t).natAbs := by
            have hlt2 : ¬((h - t).natAbs < d0) := by
              simpa [ltOpt] using hlt
            exact Nat.le_of_not_lt hlt2
          exact ih (pre ++ [e]) c (some d0) c2
            (inv_snoc_worse t pre c d0 e h hInv hstep hge) hok

theorem entryStep_hour_truthy (e : JVal) (h : Int)
    (he : entryStep e = .hour h) : e.truthy = true := by
  cases e with
  | obj kvs =>
    cases kvs with
    | nil => simp [entryStep] at he
    | cons kv rest => rfl
  | null => simp [entryStep] at he
  | bool b => simp [entryStep] at he
  | num q => simp [entryStep] at he
  | str s => simp [entryStep] at he
  | arr xs => simp [entryStep] at he

/-- On a list containing at least one parseable entry, a normal return of
`find_closest_entry` is the first entry achieving the minimal hour
distance: it occurs in the list, its distance bounds every parseable
entry's distance, and every parseable entry strictly before it is strictly
farther. -/
theorem find_closest_entry_char (xs : List JVal) (t : Int) (v : JVal)
    (hok : find_closest_entry (.arr xs) t = .ok v)
    (hp : ∃ e ∈ xs, ∃ h, entryStep e = .hour h) :
    ∃ pA pB h, xs = pA ++ v :: pB ∧ entryStep v = .hour h ∧
      StrictBefore t (hourDist h t) pA ∧ MinOver t (hourDist h t) xs := by
  obtain ⟨e0, he0, h0, hh0⟩ := hp
  cases xs with
  | nil => simp at he0
  | cons x l =>
    simp only [find_closest_entry, JVal.truthy, List.isEmpty_cons,
      Bool.not_false, reduceCtorEq, if_false, pyIter] at hok
    cases hloop : fceLoop t (x :: l) .null none with
    | error u => rw [hloop] at hok; simp at hok
    | ok c =>
      rw [hloop] at hok
      simp only [Except.ok.injEq] at hok
      have hInv0 : LoopInv t [] JVal.null none := ⟨rfl, by intro e he; simp at he⟩
      obtain ⟨m2, hinv⟩ := fceLoop_inv t (x :: l) [] .null none c hInv0 hloop
      simp only [List.nil_append] at hinv
      cases m2 with
      | none => exact absurd hh0 (hinv.2 e0 he0 h0)
      | some d =>
        obtain ⟨pA, pB, h, hxs, hc, hd, hstrict, hmin⟩ := hinv
        have hvc : v = c := by
          rw [← hok, pyOr, if_pos (entryStep_hour_truthy c h hc)]
        subst hvc
        subst hd
        exact ⟨pA, pB, h, hxs, hc, hstrict, hmin⟩

/-- Claim C1 (amended): whenever `find_closest_entry` returns normally on a
list containing at least one entry with a parseable timestamp, the returned
value is an element of the input list — it never fabricates data; entries
lacking a parseable timestamp are skipped during the search.  (The original
claim asked this of every non-empty list; when no entry has a parseable
timestamp the function instead returns a fresh empty dict — see the
counterexample.) -/
theorem C1_result_mem (xs : List JVal) (t : Int) (v : JVal)
    (hok : find_closest_entry (.arr xs) t = .ok v)
    (hp : ∃ e ∈ xs, ∃ h, entryStep e = .hour h) :
    v ∈ xs := by
  obtain ⟨pA, pB, h, hxs, _, _, _⟩ := find_closest_entry_char xs t v hok hp
  rw [hxs]
  exact List.mem_append.2 (Or.inr (List.mem_cons_self _ _))

/-- Witness for C1 at a concrete input. -/
theorem C1_witness : entW ∈ [entW] :=
  C1_result_mem [entW] 6 entW rfl ⟨entW, List.mem_singleton.2 rfl, 6, rfl⟩

/-- Claim C1 counterexample: on the non-empty list `[{'x': 1}]` (whose one
entry lacks a parseable timestamp) the function returns the empty dict
`{}`, which is not an element of the input list. -/
theorem C1_counterexample :
    find_closest_entry (.arr [cexNoTs]) 6 = .ok (.obj []) ∧
    JVal.obj [] ∉ [cexNoTs] := by
  refine ⟨rfl, ?_⟩
  simp [cexNoTs]

/-- Claim C2 (amended): whenever `find_closest_entry` returns normally on a
list containing at least one entry with a parseable timestamp, the returned
entry occurs in the list, its hour distance to the target is minimal among
all parseable entries, and every parseable entry occurring before it is
strictly farther — so a unique minimizer is returned, and on ties the
earliest entry in input order wins.  (The original claim quantified over
every list; a list can also contain an entry whose `dateTime` is a truthy
non-string, making the call raise instead of returning — see the
counterexample.) -/
theorem C2_first_min (xs : List JVal) (t : Int) (v : JVal)
    (hok : find_closest_entry (.arr xs) t = .ok v)
    (hp : ∃ e ∈ xs, ∃ h, entryStep e = .hour h) :
    ∃ pA pB h, xs = pA ++ v :: pB ∧ entryStep v = .hour h ∧
      MinOver t (hourDist h t) xs ∧ StrictBefore t (hourDist h t) pA := by
  obtain ⟨pA, pB, h, hxs, hv, hstrict, hmin⟩ :=
    find_closest_entry_char xs t v hok hp
  exact ⟨pA, pB, h, hxs, hv, hmin, hstrict⟩

/-- Witness for C2 at a concrete input. -/
theorem C2_witness :
    ∃ pA pB h, [entW] = pA ++ entW :: pB ∧ entryStep entW = .hour h ∧
      MinOver 6 (hourDist h 6) [entW] ∧ StrictBefore 6 (hourDist h 6) pA :=
  C2_first_min [entW] 6 entW rfl ⟨entW, List.mem_singleton.2 rfl, 6, rfl⟩

/-- Claim C2 counterexample: in `[{'dateTime': '2024-01-01T06:00:00'},
{'dateTime': 5}]` with target hour 6, the first entry is the only one with
a parseable timestamp — the unique minimizer — yet the function does not
return it: `'T' in 5` raises an uncaught `TypeError`. -/
theorem C2_counterexample :
    entryStep entW = .hour 6 ∧ entryStep cexRaise = .raise ∧
    find_closest_entry (.arr [entW, cexRaise]) 6 = .error () :=
  ⟨rfl, rfl, rfl⟩
